import Mathlib

/-!
Shallow embedding of the request-execution core of the `google_maps` Rust
client library, together with proofs about its behaviour.

The embedding follows the source files under `src/`:

* `src/time_zone/request/get.rs`, `src/places/place_autocomplete/request/get.rs`
  and `src/places/place_search/nearby_search/request/get.rs` — the per-endpoint
  `get()` methods.  All three are textually identical up to the endpoint's
  status/error types and API tag; the classification logic of one retry
  attempt is embedded once (`classifyAttempt`) and the surrounding call
  orchestration once (`endpointGet`), parameterised by the endpoint data.
* `src/places/error.rs` — the endpoint error enum and (via its `Display`
  implementation) the remote status vocabulary `PlacesStatus`.
* `src/geocoding/reverse/with_location_types.rs` — the location-type builder.
* `src/directions/request/location/geo_conversions.rs` and
  `src/directions/request/waypoint/geo_conversions.rs` — geo conversions.
* `src/types/error.rs` — the type-level error enum with the documented
  latitude/longitude ranges.

Code the repository delegates to but whose source is not under `src/`
(the rate-limiter internals, the `backoff` crate's retry scheduler, and
`LatLng::try_from_dec`) is modelled from the specification; each such
definition says so in its doc comment.

Durations are modelled as rationals (`ℚ`), HTTP status codes as naturals.
String payloads carried by errors are elided: only the constructor identity
and the status values, which the classification logic inspects, are kept.
-/

namespace GoogleMaps

/-- Modelled from the spec: the `Api` category tag (`request_rate/api.rs` is
not under `src/`).  One tag per endpoint family plus the wildcard `All`;
the variants are restricted to the ones exercised by the sources under
`src/` (`Api::All`, `Api::Places`, `Api::TimeZone`). -/
inductive Api : Type
  | All : Api
  | Places : Api
  | TimeZone : Api
deriving DecidableEq, Repr

/-- The remote status vocabulary of the Places APIs, from
`src/places/error.rs` (the `Display` implementation enumerates exactly
these variants of `crate::places::status::Status`). -/
inductive PlacesStatus : Type
  | InvalidRequest : PlacesStatus
  | Ok : PlacesStatus
  | OverQueryLimit : PlacesStatus
  | RequestDenied : PlacesStatus
  | UnknownError : PlacesStatus
  | ZeroResults : PlacesStatus
  | NotFound : PlacesStatus
deriving DecidableEq, Repr

/-- The endpoint error enum, from `src/places/error.rs`, parameterised by the
status vocabulary `σ` (the time-zone endpoint has the same constructors over
its own status type).  String payloads are elided; the remote status carried
by `googleMapsService` is kept because `get()` inspects it. -/
inductive EndpointError (σ : Type) : Type
  | googleMapsService (status : σ) (errorMessage : Option String) : EndpointError σ
  | httpUnsuccessful (status : Nat) : EndpointError σ
  | queryNotBuilt : EndpointError σ
  | reqwest : EndpointError σ
  | reqwestMessage : EndpointError σ
  | serdeJson : EndpointError σ
deriving DecidableEq, Repr

/-- The body of an HTTP response, as observed by the `get()` closure after a
success status: reading the text can fail (`response.text()` returns `Err`),
parsing the text can fail (`serde_json::from_str` returns `Err`), or the body
deserialises to a response carrying a remote status and an optional error
message. -/
inductive BodyOutcome (σ : Type) : Type
  | readError : BodyOutcome σ
  | parseError : BodyOutcome σ
  | parsed (status : σ) (errorMessage : Option String) : BodyOutcome σ
deriving DecidableEq, Repr

/-- The raw result of one transport attempt, as matched by the `get()`
closure: either the HTTP client failed to obtain any response
(`Err(error)` from reqwest — connection error or timeout), or a response
with a status code and a body arrived. -/
inductive TransportResult (σ : Type) : Type
  | transportError : TransportResult σ
  | response (status : Nat) (body : BodyOutcome σ) : TransportResult σ
deriving DecidableEq, Repr

/-- `reqwest::StatusCode::is_success`: 2xx. -/
def isSuccessStatus (st : Nat) : Bool :=
  200 ≤ st && st ≤ 299

/-- `reqwest::StatusCode::is_server_error`: 5xx. -/
def isServerErrorStatus (st : Nat) : Bool :=
  500 ≤ st && st ≤ 599

/-- The three-way classification produced by one iteration of the `get()`
closure: `ok` (the deserialised response is returned), `transient`
(`backoff::Error::Transient` — eligible for retry) or `permanent`
(`backoff::Error::Permanent` — exits the retry loop). -/
inductive Classified (σ : Type) : Type
  | ok (status : σ) : Classified σ
  | transient (e : EndpointError σ) : Classified σ
  | permanent (e : EndpointError σ) : Classified σ
deriving DecidableEq, Repr

/-- Whether a classified outcome is a retryable (`Transient`) failure. -/
def Classified.isTransient {σ : Type} : Classified σ → Bool
  | .transient _ => true
  | _ => false

/-- Whether a classified outcome is a terminal (`Permanent`) failure. -/
def Classified.isPermanent {σ : Type} : Classified σ → Bool
  | .permanent _ => true
  | _ => false

/-- The classification performed by the body of the retry closure in
`src/time_zone/request/get.rs` lines 59–134 (identically in
`src/places/place_autocomplete/request/get.rs` lines 58–133 and
`src/places/place_search/nearby_search/request/get.rs` lines 58–133),
parameterised by the endpoint's `Ok` and `UnknownError` status values:

* no response obtained → `Transient(Reqwest)`;
* response with success status → read the body text:
  * text read failed → `Permanent(ReqwestMessage)`;
  * JSON parse failed → `Permanent(SerdeJson)`;
  * parsed with status `Ok` → success;
  * parsed with status `UnknownError` → `Transient(GoogleMapsService)`;
  * parsed with any other status → `Permanent(GoogleMapsService)`;
* response with non-success status → `Transient(HttpUnsuccessful)` when the
  status is a 5xx server error or 429, else `Permanent(HttpUnsuccessful)`. -/
def classifyAttempt {σ : Type} [DecidableEq σ] (okS unknownS : σ) :
    TransportResult σ → Classified σ
  | .transportError => .transient .reqwest
  | .response st body =>
      if isSuccessStatus st then
        match body with
        | .readError => .permanent .reqwestMessage
        | .parseError => .permanent .serdeJson
        | .parsed s msg =>
            if s = okS then
              .ok s
            else if s = unknownS then
              .transient (.googleMapsService s msg)
            else
              .permanent (.googleMapsService s msg)
      else if isServerErrorStatus st || st = 429 then
        .transient (.httpUnsuccessful st)
      else
        .permanent (.httpUnsuccessful st)

/-- The classification of the Places endpoints
(`crate::places::status::Status`): `Ok` is the success status and
`UnknownError` the only retryable remote status. -/
def classifyPlaces : TransportResult PlacesStatus → Classified PlacesStatus :=
  classifyAttempt PlacesStatus.Ok PlacesStatus.UnknownError

/-- Modelled from the spec: the retry policy record of §3 (the repository
delegates retry scheduling to the external `backoff` crate, whose source is
not under `src/`).  Durations are rationals; `none` in `max_elapsed_time`
or `max_retries` means unbounded. -/
structure RetryPolicy : Type where
  initial_delay : ℚ
  max_delay : ℚ
  multiplier : ℚ
  max_elapsed_time : Option ℚ
  max_retries : Option ℕ
deriving DecidableEq, Repr

/-- The three-way attempt outcome consumed by the retry executor (§3
`AttemptOutcome`); the `get()` closures produce it through `classifyAttempt`
(`Transient` ↦ `retryable`, `Permanent` ↦ `terminal`). -/
inductive AttemptOutcome (α ε : Type) : Type
  | success (a : α) : AttemptOutcome α ε
  | retryable (e : ε) : AttemptOutcome α ε
  | terminal (e : ε) : AttemptOutcome α ε
deriving DecidableEq, Repr

/-- Bridge from the closure's classification to the executor's outcome. -/
def Classified.toOutcome {σ : Type} : Classified σ → AttemptOutcome σ (EndpointError σ)
  | .ok s => .success s
  | .transient e => .retryable e
  | .permanent e => .terminal e

/-- Whether, after `n + 1` attempts have been made, the retry bound of the
policy is exhausted (§4.3 step 4: `attempt_count` exceeds `max_retries`
when bounded). -/
def retriesExhausted (p : RetryPolicy) (n : ℕ) : Bool :=
  match p.max_retries with
  | some r => decide (r < n + 1)
  | none => false

/-- Whether waiting `delay` would push the elapsed time past the policy's
`max_elapsed_time` when bounded (§4.3 step 4). -/
def elapsedExhausted (p : RetryPolicy) (elapsed delay : ℚ) : Bool :=
  match p.max_elapsed_time with
  | some m => decide (m < elapsed + delay)
  | none => false

/-- Modelled from the spec: the retry executor loop of §4.3 (implemented in
the repository by `backoff::future::retry`, not under `src/`).  `cl n` is
the outcome of attempt number `n` (0-based); `delay` is the current backoff
delay, `elapsed` the time waited so far.  `fuel` bounds the recursion depth:
the result is `none` when the fuel runs out before the loop resolves, and
otherwise `some (result, attemptsMade, delays)` where `delays` lists, in
order, the backoff waits performed between attempts.  Each iteration runs
one attempt; on `success` or `terminal` it stops at once, and on `retryable`
it stops with the last retryable error when a bound is exhausted, else waits
`delay`, sets `delay := min (delay * multiplier) max_delay`, and loops. -/
def execRetry {α ε : Type} (cl : ℕ → AttemptOutcome α ε) (p : RetryPolicy) :
    ℕ → ℕ → ℚ → ℚ → Option (Except ε α × ℕ × List ℚ)
  | 0, _, _, _ => none
  | fuel + 1, n, delay, elapsed =>
      match cl n with
      | .success a => some (.ok a, n + 1, [])
      | .terminal e => some (.error e, n + 1, [])
      | .retryable e =>
          if retriesExhausted p n || elapsedExhausted p elapsed delay then
            some (.error e, n + 1, [])
          else
            match execRetry cl p fuel (n + 1)
                (min (delay * p.multiplier) p.max_delay) (elapsed + delay) with
            | none => none
            | some (r, k, ds) => some (r, k, delay :: ds)

/-- One full run of the retry executor from the initial state (§4.3:
`delay = policy.initial_delay`, `attempt_count = 0`, `elapsed = 0`). -/
def execute {α ε : Type} (cl : ℕ → AttemptOutcome α ε) (p : RetryPolicy)
    (fuel : ℕ) : Option (Except ε α × ℕ × List ℚ) :=
  execRetry cl p fuel 0 p.initial_delay 0

/-- An observable action of one `get()` call: a rate-limit admission request
(`limit_apis` with its list of API categories) or one transport attempt
(one execution of the retry closure's HTTP request). -/
inductive Event : Type
  | admission (apis : List Api) : Event
  | attempt : Event
deriving DecidableEq, Repr

/-- The request object seen by `get()`; only the `query` field is relevant
to the control flow of `get()` (`Some` holds the built query string). -/
structure RequestModel : Type where
  query : Option String
deriving DecidableEq, Repr

/-- The retry loop of `get()` with its observable events: each iteration
runs the closure — one transport attempt (`Event.attempt`) followed by the
classification of `classifyAttempt` — and the loop schedules iterations as
the retry executor does.  The closure's body (source lines 50–134 of
`src/time_zone/request/get.rs` and the identical lines of the other two
`get.rs` files) contains no call to `limit_apis`, so the emitted trace
contains no `Event.admission`; scheduling bookkeeping is modelled from §4.3
since the `backoff` crate is not under `src/`. -/
def getLoop {σ : Type} [DecidableEq σ] (okS unknownS : σ)
    (transport : ℕ → TransportResult σ) (p : RetryPolicy) :
    ℕ → ℕ → ℚ → ℚ → Option (Except (EndpointError σ) σ) × List Event
  | 0, _, _, _ => (none, [])
  | fuel + 1, n, delay, elapsed =>
      match (classifyAttempt okS unknownS (transport n)).toOutcome with
      | .success a => (some (.ok a), [.attempt])
      | .terminal e => (some (.error e), [.attempt])
      | .retryable e =>
          if retriesExhausted p n || elapsedExhausted p elapsed delay then
            (some (.error e), [.attempt])
          else
            match getLoop okS unknownS transport p fuel (n + 1)
                (min (delay * p.multiplier) p.max_delay) (elapsed + delay) with
            | (r, tr) => (r, .attempt :: tr)

/-- The orchestration of a `get()` call, common to
`src/time_zone/request/get.rs`, `src/places/place_autocomplete/request/get.rs`
and `src/places/place_search/nearby_search/request/get.rs` (the three differ
only in status/error types and in the API tag passed to `limit_apis`):

1. if the query string is not built, return `Error::QueryNotBuilt` at once;
2. otherwise call `rate_limit.limit_apis(vec![Api::All, api])` — one
   admission request under the wildcard and the endpoint's category;
3. then run the retry loop.

The returned trace lists the observable events in order. -/
def endpointGet {σ : Type} [DecidableEq σ] (api : Api) (okS unknownS : σ)
    (req : RequestModel) (transport : ℕ → TransportResult σ) (p : RetryPolicy)
    (fuel : ℕ) : Option (Except (EndpointError σ) σ) × List Event :=
  match req.query with
  | none => (some (.error .queryNotBuilt), [])
  | some _ =>
      match getLoop okS unknownS transport p fuel 0 p.initial_delay 0 with
      | (r, tr) => (r, .admission [Api.All, api] :: tr)

/-- `TimeZoneRequest::get` (`src/time_zone/request/get.rs`): the endpoint
passes `vec![&Api::All, &Api::TimeZone]` to `limit_apis`.  Generic in the
endpoint's status vocabulary `σ` (the time-zone status enum is not under
`src/`; only its `Ok` and `UnknownError` values are used by `get()`). -/
def timeZoneGet {σ : Type} [DecidableEq σ] (okS unknownS : σ)
    (req : RequestModel) (transport : ℕ → TransportResult σ) (p : RetryPolicy)
    (fuel : ℕ) : Option (Except (EndpointError σ) σ) × List Event :=
  endpointGet Api.TimeZone okS unknownS req transport p fuel

/-- `PlaceAutocompleteRequest::get`
(`src/places/place_autocomplete/request/get.rs`): the endpoint passes
`vec![&Api::All, &Api::Places]` to `limit_apis`. -/
def placeAutocompleteGet {σ : Type} [DecidableEq σ] (okS unknownS : σ)
    (req : RequestModel) (transport : ℕ → TransportResult σ) (p : RetryPolicy)
    (fuel : ℕ) : Option (Except (EndpointError σ) σ) × List Event :=
  endpointGet Api.Places okS unknownS req transport p fuel

/-- An `f64` value as the geo conversions observe it: a finite rational, or
one of the non-finite values (NaN, positive or negative infinity). -/
inductive F64 : Type
  | finite (q : ℚ) : F64
  | nan : F64
  | posInf : F64
  | negInf : F64
deriving DecidableEq, Repr

/-- Whether an `f64` value is finite. -/
def F64.isFinite : F64 → Bool
  | .finite _ => true
  | _ => false

/-- Modelled from the `rust_decimal` boundary: `Decimal::from_f64` yields
`None` exactly on the values not representable as a `Decimal` — NaN and the
infinities (`Decimal` is modelled as `ℚ`). -/
def decimalFromF64 : F64 → Option ℚ
  | .finite q => some q
  | _ => none

/-- The type-level error enum of `src/types/error.rs`, restricted to the
variants reachable from the geo conversions; `invalidLatitude` and
`invalidLongitude` carry the latitude/longitude pair as in the source, and
`floatToDecimalConversionError` carries the offending value's rendering
(elided here). -/
inductive TypeError : Type
  | invalidLatitude (lat lng : ℚ) : TypeError
  | invalidLongitude (lat lng : ℚ) : TypeError
  | floatToDecimalConversionError : TypeError
deriving DecidableEq, Repr

/-- A latitude/longitude pair (`Decimal` fields modelled as `ℚ`). -/
structure LatLng : Type where
  lat : ℚ
  lng : ℚ
deriving DecidableEq, Repr

/-- Modelled from the spec: `LatLng::try_from_dec` is not under `src/`; its
range checks are modelled from the documentation in `src/types/error.rs`
("A latitude must be between -90.0° and 90.0°", "A longitude must be
between -180.0° and 180.0°"), with an out-of-range latitude reported before
an out-of-range longitude and both values carried in the error. -/
def latLngTryFromDec (lat lng : ℚ) : Except TypeError LatLng :=
  if lat < -90 ∨ 90 < lat then
    .error (.invalidLatitude lat lng)
  else if lng < -180 ∨ 180 < lng then
    .error (.invalidLongitude lat lng)
  else
    .ok ⟨lat, lng⟩

/-- A `geo_types` coordinate: `x` is the easting (longitude), `y` the
northing (latitude). -/
structure Coord : Type where
  x : F64
  y : F64
deriving DecidableEq, Repr

/-- A `geo_types` point, wrapping a coordinate (`Point.x()`/`Point.y()`
delegate to the wrapped coordinate). -/
structure Point : Type where
  coord : Coord
deriving DecidableEq, Repr

/-- `google_maps::directions::Location`, restricted to the variant the geo
conversions construct. -/
inductive Location : Type
  | latLng (ll : LatLng) : Location
deriving DecidableEq, Repr

/-- `google_maps::directions::Waypoint`, restricted to the variant the geo
conversions construct. -/
inductive Waypoint : Type
  | latLng (ll : LatLng) : Waypoint
deriving DecidableEq, Repr

/-- `TryFrom<&Coord> for Location`
(`src/directions/request/location/geo_conversions.rs`): convert `y` to a
`Decimal` latitude (error on failure), then `x` to a `Decimal` longitude
(error on failure), then build the `LatLng` through `try_from_dec`
(propagating its error), and wrap it in `Location::LatLng`. -/
def locationTryFromCoord (c : Coord) : Except TypeError Location :=
  match decimalFromF64 c.y with
  | none => .error .floatToDecimalConversionError
  | some lat =>
      match decimalFromF64 c.x with
      | none => .error .floatToDecimalConversionError
      | some lng =>
          match latLngTryFromDec lat lng with
          | .error e => .error e
          | .ok ll => .ok (Location.latLng ll)

/-- `TryFrom<&Point> for Location`: identical to the coordinate conversion
through `point.x()`/`point.y()`. -/
def locationTryFromPoint (pt : Point) : Except TypeError Location :=
  locationTryFromCoord pt.coord

/-- `TryFrom<&Coord> for Waypoint`
(`src/directions/request/waypoint/geo_conversions.rs`): same steps as the
`Location` conversion, wrapping the result in `Waypoint::LatLng`. -/
def waypointTryFromCoord (c : Coord) : Except TypeError Waypoint :=
  match decimalFromF64 c.y with
  | none => .error .floatToDecimalConversionError
  | some lat =>
      match decimalFromF64 c.x with
      | none => .error .floatToDecimalConversionError
      | some lng =>
          match latLngTryFromDec lat lng with
          | .error e => .error e
          | .ok ll => .ok (Waypoint.latLng ll)

/-- `TryFrom<&Point> for Waypoint`: identical to the coordinate conversion
through `point.x()`/`point.y()`. -/
def waypointTryFromPoint (pt : Point) : Except TypeError Waypoint :=
  waypointTryFromCoord pt.coord

/-- The geocoder location-type filter
(`crate::types::location_type::LocationType`); the four variants are listed
in the doc comments of `src/geocoding/reverse/with_location_types.rs`. -/
inductive LocationType : Type
  | roofTop : LocationType
  | rangeInterpolated : LocationType
  | geometricCenter : LocationType
  | approximate : LocationType
deriving DecidableEq, Repr

/-- The reverse-geocoding request, restricted to the field the location-type
builders touch. -/
structure ReverseRequest : Type where
  location_types : Option (List LocationType)
deriving DecidableEq, Repr

/-- `ReverseRequest::with_location_type`
(`src/geocoding/reverse/with_location_types.rs` lines 61–74): if the field
is `None`, initialise it with a singleton vector; otherwise push onto the
existing vector.  The method returns the (mutated) request for chaining. -/
def withLocationType (r : ReverseRequest) (t : LocationType) : ReverseRequest :=
  match r.location_types with
  | none => ⟨some [t]⟩
  | some ts => ⟨some (ts ++ [t])⟩

/-- `ReverseRequest::with_location_types`
(`src/geocoding/reverse/with_location_types.rs` lines 103–118): if the field
is `None`, initialise it with a copy of the slice; otherwise push each
element of the slice, in order, onto the existing vector. -/
def withLocationTypes (r : ReverseRequest) (ts : List LocationType) :
    ReverseRequest :=
  match r.location_types with
  | none => ⟨some ts⟩
  | some ts0 => ⟨some (ts0 ++ ts)⟩

/-- One builder call on the `location_types` field: either
`with_location_type` with a single filter or `with_location_types` with a
slice of filters. -/
inductive LocCall : Type
  | single (t : LocationType) : LocCall
  | multi (ts : List LocationType) : LocCall
deriving DecidableEq, Repr

/-- Apply one builder call. -/
def applyLocCall (r : ReverseRequest) : LocCall → ReverseRequest
  | .single t => withLocationType r t
  | .multi ts => withLocationTypes r ts

/-- Apply a sequence of builder calls in order (method chaining). -/
def applyLocCalls (r : ReverseRequest) (cs : List LocCall) : ReverseRequest :=
  cs.foldl applyLocCall r

/-- The filters passed by a sequence of builder calls, in call order. -/
def flattenLocCalls : List LocCall → List LocationType
  | [] => []
  | .single t :: cs => t :: flattenLocCalls cs
  | .multi ts :: cs => ts ++ flattenLocCalls cs

/-- Every event emitted by the retry loop of `get()` is a transport attempt:
the closure handed to the retry scheduler contains no rate-limit call. -/
theorem getLoop_trace_attempts {σ : Type} [DecidableEq σ] (okS unknownS : σ)
    (transport : ℕ → TransportResult σ) (p : RetryPolicy) :
    ∀ (fuel n : ℕ) (delay elapsed : ℚ),
      ∃ k, (getLoop okS unknownS transport p fuel n delay elapsed).2 =
        List.replicate k Event.attempt := by
  intro fuel
  induction fuel with
  | zero =>
      intro n delay elapsed
      exact ⟨0, rfl⟩
  | succ fuel ih =>
      intro n delay elapsed
      rcases h : (classifyAttempt okS unknownS (transport n)).toOutcome with a | e | e
      · exact ⟨1, by simp [getLoop, h]⟩
      · by_cases hstop :
          (retriesExhausted p n || elapsedExhausted p elapsed delay) = true
        · exact ⟨1, by simp [getLoop, h, hstop]⟩
        · obtain ⟨k, hk⟩ := ih (n + 1)
            (min (delay * p.multiplier) p.max_delay) (elapsed + delay)
          refine ⟨k + 1, ?_⟩
          simp only [getLoop, h, hstop, Bool.false_eq_true, if_false]
          rw [List.replicate_succ]
          exact congrArg _ hk
      · exact ⟨1, by simp [getLoop, h]⟩

/-- C1: when the query string is built, a `get()` call requests rate-limit
admission exactly once — as the first observable event, before any transport
attempt, under both the endpoint's own API category and the wildcard `All`
in a single `limit_apis` call — and every later event of the call is a
transport attempt: retries inside the same call never request admission
again, whatever the retry policy and however many attempts are made. -/
theorem get_admission_once_per_call {σ : Type} [DecidableEq σ]
    (okS unknownS : σ) (req : RequestModel)
    (transport : ℕ → TransportResult σ) (p : RetryPolicy) (fuel : ℕ)
    (q : String) (hq : req.query = some q) :
    (∃ k, (timeZoneGet okS unknownS req transport p fuel).2 =
      Event.admission [Api.All, Api.TimeZone] :: List.replicate k Event.attempt) ∧
    (∃ k, (placeAutocompleteGet okS unknownS req transport p fuel).2 =
      Event.admission [Api.All, Api.Places] :: List.replicate k Event.attempt) := by
  obtain ⟨k, hk⟩ :=
    getLoop_trace_attempts okS unknownS transport p fuel 0 p.initial_delay 0
  constructor
  · refine ⟨k, ?_⟩
    simp only [timeZoneGet, endpointGet, hq]
    exact congrArg _ hk
  · refine ⟨k, ?_⟩
    simp only [placeAutocompleteGet, endpointGet, hq]
    exact congrArg _ hk

/-- Witness for C1 at a concrete call: query built, transport failing once,
retry policy `max_retries = 0`. -/
theorem get_admission_once_per_call_witness :
    (∃ k, (timeZoneGet PlacesStatus.Ok PlacesStatus.UnknownError ⟨some "a"⟩
        (fun _ => TransportResult.transportError) ⟨1, 8, 2, none, some 0⟩ 1).2 =
      Event.admission [Api.All, Api.TimeZone] :: List.replicate k Event.attempt) ∧
    (∃ k, (placeAutocompleteGet PlacesStatus.Ok PlacesStatus.UnknownError
        ⟨some "a"⟩ (fun _ => TransportResult.transportError)
        ⟨1, 8, 2, none, some 0⟩ 1).2 =
      Event.admission [Api.All, Api.Places] :: List.replicate k Event.attempt) :=
  get_admission_once_per_call PlacesStatus.Ok PlacesStatus.UnknownError
    ⟨some "a"⟩ (fun _ => TransportResult.transportError)
    ⟨1, 8, 2, none, some 0⟩ 1 "a" rfl

/-- C8: when the query string has not been built, `get()` returns the
`QueryNotBuilt` error immediately: the event trace is empty, so no rate-limit
admission is requested (the shared limiter state is untouched) and no
transport attempt is performed. -/
theorem get_query_not_built {σ : Type} [DecidableEq σ]
    (okS unknownS : σ) (req : RequestModel)
    (transport : ℕ → TransportResult σ) (p : RetryPolicy) (fuel : ℕ)
    (hq : req.query = none) :
    timeZoneGet okS unknownS req transport p fuel =
      (some (.error .queryNotBuilt), []) ∧
    placeAutocompleteGet okS unknownS req transport p fuel =
      (some (.error .queryNotBuilt), []) := by
  constructor
  · simp [timeZoneGet, endpointGet, hq]
  · simp [placeAutocompleteGet, endpointGet, hq]

/-- Witness for C8 at a concrete call with an unbuilt query. -/
theorem get_query_not_built_witness :
    timeZoneGet PlacesStatus.Ok PlacesStatus.UnknownError ⟨none⟩
        (fun _ => TransportResult.transportError) ⟨1, 8, 2, none, some 0⟩ 1 =
      (some (.error .queryNotBuilt), []) ∧
    placeAutocompleteGet PlacesStatus.Ok PlacesStatus.UnknownError ⟨none⟩
        (fun _ => TransportResult.transportError) ⟨1, 8, 2, none, some 0⟩ 1 =
      (some (.error .queryNotBuilt), []) :=
  get_query_not_built PlacesStatus.Ok PlacesStatus.UnknownError ⟨none⟩
    (fun _ => TransportResult.transportError) ⟨1, 8, 2, none, some 0⟩ 1 rfl

/-- C2: a transport attempt that yields an HTTP response with a non-success
status is classified retryable (`Transient`) exactly when the status is a
5xx server error or 429; every other non-success status yields
`Permanent(HttpUnsuccessful)`, which the retry loop surfaces immediately. -/
theorem http_status_retryable_iff (st : ℕ) (body : BodyOutcome PlacesStatus)
    (hns : isSuccessStatus st = false) :
    ((classifyPlaces (.response st body)).isTransient = true ↔
      ((500 ≤ st ∧ st ≤ 599) ∨ st = 429)) ∧
    (¬ ((500 ≤ st ∧ st ≤ 599) ∨ st = 429) →
      classifyPlaces (.response st body) =
        .permanent (.httpUnsuccessful st)) := by
  have hs : (isServerErrorStatus st || decide (st = 429)) = true ↔
      ((500 ≤ st ∧ st ≤ 599) ∨ st = 429) := by
    simp [isServerErrorStatus]
  constructor
  · by_cases hc : (isServerErrorStatus st || decide (st = 429)) = true
    · simp only [classifyPlaces, classifyAttempt, hns, Bool.false_eq_true,
        if_false, decide_eq_true_eq] at hc ⊢
      rw [if_pos hc]
      simpa [Classified.isTransient] using hs.mp (by simpa using hc)
    · simp only [classifyPlaces, classifyAttempt, hns, Bool.false_eq_true,
        if_false, decide_eq_true_eq] at hc ⊢
      rw [if_neg hc]
      simp only [Classified.isTransient, Bool.false_eq_true, false_iff]
      intro hp
      exact hc (by simpa using hs.mpr hp)
  · intro hp
    have hc : ¬ ((isServerErrorStatus st || decide (st = 429)) = true) :=
      fun hcc => hp (hs.mp hcc)
    simp only [classifyPlaces, classifyAttempt, hns, Bool.false_eq_true,
      if_false, decide_eq_true_eq] at hc ⊢
    rw [if_neg hc]

/-- Witness for C2 at concrete statuses: 503 is retryable, 404 terminal. -/
theorem http_status_retryable_iff_witness :
    ((classifyPlaces (.response 503 .parseError)).isTransient = true ↔
      ((500 ≤ 503 ∧ 503 ≤ 599) ∨ 503 = 429)) ∧
    ((classifyPlaces (.response 404 .parseError)).isTransient = true ↔
      ((500 ≤ 404 ∧ 404 ≤ 599) ∨ 404 = 429)) ∧
    classifyPlaces (.response 404 .parseError) =
      .permanent (.httpUnsuccessful 404) :=
  ⟨(http_status_retryable_iff 503 .parseError rfl).1,
   (http_status_retryable_iff 404 .parseError rfl).1,
   (http_status_retryable_iff 404 .parseError rfl).2 (by decide)⟩

/-- C3: for a successfully parsed response body, the classification is
retryable exactly when the remote status is `UnknownError`; every other
non-`Ok` remote status yields `Permanent(GoogleMapsService)`, and a failure
to parse the body yields `Permanent(SerdeJson)` — never retried. -/
theorem remote_status_retryable_iff (st : ℕ) (s : PlacesStatus)
    (msg : Option String) (hsucc : isSuccessStatus st = true) :
    ((classifyPlaces (.response st (.parsed s msg))).isTransient = true ↔
      s = PlacesStatus.UnknownError) ∧
    (s ≠ PlacesStatus.Ok → s ≠ PlacesStatus.UnknownError →
      classifyPlaces (.response st (.parsed s msg)) =
        .permanent (.googleMapsService s msg)) ∧
    classifyPlaces (.response st .parseError) = .permanent .serdeJson := by
  refine ⟨?_, ?_, ?_⟩
  · by_cases hok : s = PlacesStatus.Ok
    · subst hok
      simp [classifyPlaces, classifyAttempt, hsucc, Classified.isTransient]
    · by_cases hunk : s = PlacesStatus.UnknownError
      · subst hunk
        simp [classifyPlaces, classifyAttempt, hsucc, Classified.isTransient]
      · simp [classifyPlaces, classifyAttempt, hsucc, hok, hunk,
          Classified.isTransient]
  · intro hok hunk
    simp [classifyPlaces, classifyAttempt, hsucc, hok, hunk]
  · simp [classifyPlaces, classifyAttempt, hsucc]

/-- Witness for C3 at status 200: `UnknownError` retryable, `RequestDenied`
terminal, parse failure terminal. -/
theorem remote_status_retryable_iff_witness :
    ((classifyPlaces
        (.response 200 (.parsed PlacesStatus.UnknownError none))).isTransient
      = true ↔ PlacesStatus.UnknownError = PlacesStatus.UnknownError) ∧
    classifyPlaces (.response 200 (.parsed PlacesStatus.RequestDenied none)) =
      .permanent (.googleMapsService PlacesStatus.RequestDenied none) ∧
    classifyPlaces (.response 200 .parseError) = .permanent .serdeJson :=
  ⟨(remote_status_retryable_iff 200 PlacesStatus.UnknownError none rfl).1,
   (remote_status_retryable_iff 200 PlacesStatus.RequestDenied none rfl).2.1
     (by decide) (by decide),
   (remote_status_retryable_iff 200 PlacesStatus.RequestDenied none rfl).2.2⟩

/-- C4 counterexample: the claim says a failure while reading the response
body after a successful status is classified retryable; in the code
(`src/places/place_autocomplete/request/get.rs` lines 110–113 and the
identical lines of the other `get.rs` files) that case is wrapped in
`Permanent(ReqwestMessage(...))`, a terminal failure. -/
theorem body_read_failure_terminal_cex :
    classifyPlaces (.response 200 .readError) = .permanent .reqwestMessage ∧
    (classifyPlaces (.response 200 .readError)).isTransient = false := by
  exact ⟨rfl, rfl⟩

/-- C4 (amended): a transport attempt that fails to obtain any response —
a connection error or timeout surfacing as `Err` from the HTTP client — is
classified `Transient(Reqwest)` and is retried; but a failure while reading
the response body after a successful status is classified
`Permanent(ReqwestMessage)`, a terminal failure. -/
theorem transport_failure_classification (st : ℕ)
    (hsucc : isSuccessStatus st = true) :
    classifyPlaces .transportError = .transient .reqwest ∧
    (classifyPlaces .transportError).isTransient = true ∧
    classifyPlaces (.response st .readError) = .permanent .reqwestMessage := by
  refine ⟨rfl, rfl, ?_⟩
  simp [classifyPlaces, classifyAttempt, hsucc]

/-- Witness for the amended C4 at status 200. -/
theorem transport_failure_classification_witness :
    classifyPlaces .transportError = .transient .reqwest ∧
    (classifyPlaces .transportError).isTransient = true ∧
    classifyPlaces (.response 200 .readError) = .permanent .reqwestMessage :=
  transport_failure_classification 200 rfl

/-- Under a classifier that always returns a retryable failure and a policy
with `max_retries = R`, the executor run from attempt number `n ≤ R` stops
at some attempt `m` with `n ≤ m ≤ R` — at attempt `R` at the latest,
because `retriesExhausted` then holds, or earlier when the elapsed-time
budget (if bounded) is exhausted — surfacing the error observed on that
last attempt. -/
theorem execRetry_always_retryable {α ε : Type} (err : ℕ → ε)
    (p : RetryPolicy) (R : ℕ) (hR : p.max_retries = some R) :
    ∀ (j n fuel : ℕ) (delay elapsed : ℚ), n + j = R → j + 1 ≤ fuel →
      ∃ m ds, n ≤ m ∧ m ≤ R ∧
        execRetry
          (fun i => (AttemptOutcome.retryable (err i) : AttemptOutcome α ε))
          p fuel n delay elapsed = some (.error (err m), m + 1, ds) := by
  intro j
  induction j with
  | zero =>
      intro n fuel delay elapsed hn hfuel
      obtain ⟨f, rfl⟩ : ∃ f, fuel = f + 1 :=
        ⟨fuel - 1, by omega⟩
      refine ⟨n, [], le_refl n, by omega, ?_⟩
      have hstop : retriesExhausted p n = true := by
        simp [retriesExhausted, hR]
        omega
      simp only [execRetry, hstop, Bool.true_or, if_true]
  | succ j ih =>
      intro n fuel delay elapsed hn hfuel
      obtain ⟨f, rfl⟩ : ∃ f, fuel = f + 1 :=
        ⟨fuel - 1, by omega⟩
      by_cases hstop :
          (retriesExhausted p n || elapsedExhausted p elapsed delay) = true
      · refine ⟨n, [], le_refl n, by omega, ?_⟩
        simp only [execRetry, hstop, if_true]
      · obtain ⟨m, ds, hm1, hm2, hds⟩ := ih (n + 1) f
          (min (delay * p.multiplier) p.max_delay) (elapsed + delay)
          (by omega) (by omega)
        refine ⟨m, delay :: ds, by omega, hm2, ?_⟩
        simp only [execRetry, hstop, Bool.false_eq_true, if_false, hds]

/-- C5: with any policy whose retry bound is `max_retries = R` — whatever
its elapsed-time budget — and a classifier that always returns a retryable
failure, the executor performs at most `R + 1` attempts (stopping earlier
only when the elapsed-time budget is exhausted first) and surfaces the
retryable error observed on the last attempt as an ordinary failure value,
not a distinct "gave up" error kind. -/
theorem retries_exhausted_bound {α ε : Type} (err : ℕ → ε) (p : RetryPolicy)
    (R fuel : ℕ) (hR : p.max_retries = some R) (hfuel : R + 1 ≤ fuel) :
    ∃ k ds, 1 ≤ k ∧ k ≤ R + 1 ∧
      execute (fun i => (AttemptOutcome.retryable (err i) : AttemptOutcome α ε))
        p fuel = some (.error (err (k - 1)), k, ds) := by
  obtain ⟨m, ds, -, hm2, hds⟩ :=
    execRetry_always_retryable err p R hR R 0 fuel p.initial_delay 0
      (by omega) hfuel
  exact ⟨m + 1, ds, by omega, by omega, hds⟩

/-- Witness for C5 at a policy with a bounded elapsed-time budget:
`max_retries = 5`, `max_elapsed_time = 2`, always-retryable classifier —
the run resolves within six attempts carrying the last observed error. -/
theorem retries_exhausted_bound_witness :
    ∃ k ds, 1 ≤ k ∧ k ≤ 5 + 1 ∧
      execute (fun i => (AttemptOutcome.retryable i : AttemptOutcome ℕ ℕ))
        ⟨1, 8, 2, some 2, some 5⟩ 6 = some (.error (k - 1), k, ds) :=
  retries_exhausted_bound (fun i => i) ⟨1, 8, 2, some 2, some 5⟩ 5 6 rfl
    (by omega)

/-- C6: a classifier returning a terminal failure on the first attempt makes
the executor perform exactly one attempt, wait no backoff delay, and return
that terminal error unchanged — for every retry policy. -/
theorem terminal_first_attempt {α ε : Type} (cl : ℕ → AttemptOutcome α ε)
    (e : ε) (p : RetryPolicy) (fuel : ℕ) (h0 : cl 0 = .terminal e)
    (hfuel : 1 ≤ fuel) :
    execute cl p fuel = some (.error e, 1, []) := by
  obtain ⟨f, rfl⟩ : ∃ f, fuel = f + 1 := ⟨fuel - 1, by omega⟩
  simp only [execute, execRetry, h0]

/-- Witness for C6: a first-attempt terminal error `7` resolves in one
attempt with no delay under an aggressive retry policy. -/
theorem terminal_first_attempt_witness :
    execute (fun _ => (AttemptOutcome.terminal 7 : AttemptOutcome ℕ ℕ))
      ⟨1, 8, 2, none, some 10⟩ 20 = some (.error 7, 1, []) :=
  terminal_first_attempt (fun _ => AttemptOutcome.terminal 7) 7
    ⟨1, 8, 2, none, some 10⟩ 20 rfl (by omega)

/-- C7 counterexample: with multiplier `2 > 1` but `initial_delay = 10`
above `max_delay = 5`, an always-retryable run waits 10 then 5: the delay
sequence decreases and its first element exceeds `max_delay`, so the claimed
property does not hold for every policy with multiplier greater than 1. -/
theorem backoff_monotonicity_cex :
    (1 : ℚ) < RetryPolicy.multiplier ⟨10, 5, 2, none, some 2⟩ ∧
    execute (fun i => (AttemptOutcome.retryable i : AttemptOutcome ℕ ℕ))
      ⟨10, 5, 2, none, some 2⟩ 3 = some (.error 2, 3, [10, 5]) ∧
    ¬ (List.Chain' (· ≤ ·) ([10, 5] : List ℚ) ∧
        ∀ d ∈ ([10, 5] : List ℚ),
          d ≤ RetryPolicy.max_delay ⟨10, 5, 2, none, some 2⟩) := by
  refine ⟨by norm_num, ?_, ?_⟩
  · norm_num [execute, execRetry, retriesExhausted, elapsedExhausted]
  · rintro ⟨hchain, -⟩
    rw [List.chain'_cons] at hchain
    exact absurd hchain.1 (by norm_num)

/-- The state invariant behind the amended C7: from any loop state whose
current delay is non-negative and at most `max_delay`, with multiplier at
least 1, the waits a run performs are non-decreasing, all at least the
current delay and at most `max_delay`. -/
theorem execRetry_delays_monotone {α ε : Type} (cl : ℕ → AttemptOutcome α ε)
    (p : RetryPolicy) (hm : 1 ≤ p.multiplier) :
    ∀ (fuel n : ℕ) (delay elapsed : ℚ) (r : Except ε α) (k : ℕ)
      (ds : List ℚ), 0 ≤ delay → delay ≤ p.max_delay →
      execRetry cl p fuel n delay elapsed = some (r, k, ds) →
      List.Chain' (· ≤ ·) ds ∧ ∀ d ∈ ds, delay ≤ d ∧ d ≤ p.max_delay := by
  intro fuel
  induction fuel with
  | zero =>
      intro n delay elapsed r k ds h0 hmax h
      exact absurd h (by simp [execRetry])
  | succ fuel ih =>
      intro n delay elapsed r k ds h0 hmax h
      rcases hcl : cl n with a | e | e
      · simp only [execRetry, hcl, Option.some.injEq, Prod.mk.injEq] at h
        obtain ⟨-, -, h3⟩ := h
        subst h3
        simp
      · simp only [execRetry, hcl] at h
        by_cases hstop :
            (retriesExhausted p n || elapsedExhausted p elapsed delay) = true
        · rw [if_pos hstop] at h
          simp only [Option.some.injEq, Prod.mk.injEq] at h
          obtain ⟨-, -, h3⟩ := h
          subst h3
          simp
        · rw [if_neg hstop] at h
          rcases hrec : execRetry cl p fuel (n + 1)
              (min (delay * p.multiplier) p.max_delay) (elapsed + delay) with
            - | ⟨r', k', ds'⟩
          · rw [hrec] at h
            exact absurd h (by simp)
          · rw [hrec] at h
            simp only [Option.some.injEq, Prod.mk.injEq] at h
            obtain ⟨-, -, h3⟩ := h
            subst h3
            have hd0 : (0 : ℚ) ≤ min (delay * p.multiplier) p.max_delay :=
              le_min (mul_nonneg h0 (le_trans zero_le_one hm))
                (le_trans h0 hmax)
            have hdm : min (delay * p.multiplier) p.max_delay ≤ p.max_delay :=
              min_le_right _ _
            have hdd : delay ≤ min (delay * p.multiplier) p.max_delay :=
              le_min (le_mul_of_one_le_right h0 hm) hmax
            obtain ⟨hchain, hmem⟩ :=
              ih (n + 1) (min (delay * p.multiplier) p.max_delay)
                (elapsed + delay) r' k' ds' hd0 hdm hrec
            constructor
            · refine List.chain'_cons'.mpr ⟨?_, hchain⟩
              intro y hy
              exact le_trans hdd (hmem y (List.mem_of_mem_head? hy)).1
            · intro d hd
              rcases List.mem_cons.mp hd with hd | hd
              · exact ⟨le_of_eq hd.symm, hd ▸ hmax⟩
              · exact ⟨le_trans hdd (hmem d hd).1, (hmem d hd).2⟩
      · simp only [execRetry, hcl, Option.some.injEq, Prod.mk.injEq] at h
        obtain ⟨-, -, h3⟩ := h
        subst h3
        simp

/-- C7 (amended): across the attempts of one call, for any multiplier
greater than 1 and any policy whose `initial_delay` is non-negative and at
most `max_delay`, the sequence of backoff delays a run performs is
non-decreasing and every delay is at most the policy's `max_delay`.  (The
unamended claim fails when `initial_delay` exceeds `max_delay`: the first
wait is `initial_delay` unclamped, so it exceeds the ceiling and the second
wait is smaller.) -/
theorem backoff_monotone_bounded {α ε : Type} (cl : ℕ → AttemptOutcome α ε)
    (p : RetryPolicy) (fuel : ℕ) (r : Except ε α) (k : ℕ) (ds : List ℚ)
    (h0 : 0 ≤ p.initial_delay) (hinit : p.initial_delay ≤ p.max_delay)
    (hm : 1 < p.multiplier) (hrun : execute cl p fuel = some (r, k, ds)) :
    List.Chain' (· ≤ ·) ds ∧ ∀ d ∈ ds, d ≤ p.max_delay := by
  obtain ⟨hchain, hmem⟩ := execRetry_delays_monotone cl p (le_of_lt hm)
    fuel 0 p.initial_delay 0 r k ds h0 hinit hrun
  exact ⟨hchain, fun d hd => (hmem d hd).2⟩

/-- Witness for the amended C7: the §8 scenario (initial delay 1, ceiling 8,
multiplier 2, five retries) produces the delay sequence 1, 2, 4, 8, 8,
which is non-decreasing and bounded by the ceiling. -/
theorem backoff_monotone_bounded_witness :
    List.Chain' (· ≤ ·) ([1, 2, 4, 8, 8] : List ℚ) ∧
    ∀ d ∈ ([1, 2, 4, 8, 8] : List ℚ),
      d ≤ RetryPolicy.max_delay ⟨1, 8, 2, none, some 5⟩ :=
  backoff_monotone_bounded
    (fun i => (AttemptOutcome.retryable i : AttemptOutcome ℕ ℕ))
    ⟨1, 8, 2, none, some 5⟩ 6 (.error 5) 6 [1, 2, 4, 8, 8]
    (by norm_num) (by norm_num) (by norm_num)
    (by norm_num [execute, execRetry, retriesExhausted, elapsedExhausted])

/-- C9: the geo conversions are total functions into `Except` — never a
panic — characterised case by case: a non-finite `y` or `x` yields the
float-to-decimal conversion error (`y` is converted first), an out-of-range
latitude or longitude propagates the corresponding `LatLng` construction
error, and on success `y` becomes the latitude and `x` the longitude of the
`LatLng` variant; the `Point` conversions coincide with the `Coord` ones. -/
theorem geo_conversions_characterized (c : Coord) (la lo : ℚ) :
    (c.y.isFinite = false →
      locationTryFromCoord c = .error .floatToDecimalConversionError ∧
      waypointTryFromCoord c = .error .floatToDecimalConversionError) ∧
    (c.x.isFinite = false →
      locationTryFromCoord c = .error .floatToDecimalConversionError ∧
      waypointTryFromCoord c = .error .floatToDecimalConversionError) ∧
    (c.y = .finite la → c.x = .finite lo → (la < -90 ∨ 90 < la) →
      locationTryFromCoord c = .error (.invalidLatitude la lo) ∧
      waypointTryFromCoord c = .error (.invalidLatitude la lo)) ∧
    (c.y = .finite la → c.x = .finite lo → -90 ≤ la → la ≤ 90 →
      (lo < -180 ∨ 180 < lo) →
      locationTryFromCoord c = .error (.invalidLongitude la lo) ∧
      waypointTryFromCoord c = .error (.invalidLongitude la lo)) ∧
    (c.y = .finite la → c.x = .finite lo → -90 ≤ la → la ≤ 90 →
      -180 ≤ lo → lo ≤ 180 →
      locationTryFromCoord c = .ok (.latLng ⟨la, lo⟩) ∧
      waypointTryFromCoord c = .ok (.latLng ⟨la, lo⟩)) ∧
    locationTryFromPoint ⟨c⟩ = locationTryFromCoord c ∧
    waypointTryFromPoint ⟨c⟩ = waypointTryFromCoord c := by
  refine ⟨?_, ?_, ?_, ?_, ?_, rfl, rfl⟩
  · intro hy
    have hdy : decimalFromF64 c.y = none := by
      cases hyv : c.y <;> simp [F64.isFinite, decimalFromF64, hyv] at hy ⊢
    constructor <;>
      simp [locationTryFromCoord, waypointTryFromCoord, hdy]
  · intro hx
    have hdx : decimalFromF64 c.x = none := by
      cases hxv : c.x <;> simp [F64.isFinite, decimalFromF64, hxv] at hx ⊢
    rcases hdy : decimalFromF64 c.y with - | q
    · constructor <;>
        simp [locationTryFromCoord, waypointTryFromCoord, hdy]
    · constructor <;>
        simp [locationTryFromCoord, waypointTryFromCoord, hdy, hdx]
  · intro hy hx hlat
    have hll : latLngTryFromDec la lo = .error (.invalidLatitude la lo) := by
      rw [latLngTryFromDec, if_pos hlat]
    constructor <;>
      simp [locationTryFromCoord, waypointTryFromCoord, decimalFromF64,
        hy, hx, hll]
  · intro hy hx hla1 hla2 hlng
    have hnl : ¬ (la < -90 ∨ 90 < la) := by
      push_neg
      exact ⟨hla1, hla2⟩
    have hll : latLngTryFromDec la lo = .error (.invalidLongitude la lo) := by
      rw [latLngTryFromDec, if_neg hnl, if_pos hlng]
    constructor <;>
      simp [locationTryFromCoord, waypointTryFromCoord, decimalFromF64,
        hy, hx, hll]
  · intro hy hx hla1 hla2 hlo1 hlo2
    have hnl : ¬ (la < -90 ∨ 90 < la) := by
      push_neg
      exact ⟨hla1, hla2⟩
    have hno : ¬ (lo < -180 ∨ 180 < lo) := by
      push_neg
      exact ⟨hlo1, hlo2⟩
    have hll : latLngTryFromDec la lo = .ok ⟨la, lo⟩ := by
      rw [latLngTryFromDec, if_neg hnl, if_neg hno]
    constructor <;>
      simp [locationTryFromCoord, waypointTryFromCoord, decimalFromF64,
        hy, hx, hll]

/-- Witness for C9 at concrete coordinates: `(x, y) = (45, 10)` converts to
latitude 10 / longitude 45; a NaN `y` yields the conversion error; latitude
91 yields the invalid-latitude error carrying the pair. -/
theorem geo_conversions_characterized_witness :
    (locationTryFromCoord ⟨.finite 45, .finite 10⟩ =
        .ok (.latLng ⟨10, 45⟩) ∧
      waypointTryFromCoord ⟨.finite 45, .finite 10⟩ =
        .ok (.latLng ⟨10, 45⟩)) ∧
    (locationTryFromCoord ⟨.finite 10, .nan⟩ =
        .error .floatToDecimalConversionError ∧
      waypointTryFromCoord ⟨.finite 10, .nan⟩ =
        .error .floatToDecimalConversionError) ∧
    (locationTryFromCoord ⟨.finite 45, .finite 91⟩ =
        .error (.invalidLatitude 91 45) ∧
      waypointTryFromCoord ⟨.finite 45, .finite 91⟩ =
        .error (.invalidLatitude 91 45)) :=
  ⟨(geo_conversions_characterized ⟨.finite 45, .finite 10⟩ 10 45).2.2.2.2.1
      rfl rfl (by norm_num) (by norm_num) (by norm_num) (by norm_num),
   (geo_conversions_characterized ⟨.finite 10, .nan⟩ 0 0).1 rfl,
   (geo_conversions_characterized ⟨.finite 45, .finite 91⟩ 91 45).2.2.1
      rfl rfl (Or.inr (by norm_num))⟩

/-- Appending semantics of the location-type builders: starting from a
request whose field already holds `ts`, a sequence of builder calls leaves
`ts` as a prefix and appends the filters passed, in call order. -/
theorem applyLocCalls_some (cs : List LocCall) :
    ∀ ts : List LocationType,
      (applyLocCalls ⟨some ts⟩ cs).location_types =
        some (ts ++ flattenLocCalls cs) := by
  induction cs with
  | nil =>
      intro ts
      simp [applyLocCalls, flattenLocCalls]
  | cons c cs ih =>
      intro ts
      cases c with
      | single t =>
          have hstep : applyLocCall ⟨some ts⟩ (.single t) =
              (⟨some (ts ++ [t])⟩ : ReverseRequest) := rfl
          calc (applyLocCalls ⟨some ts⟩ (.single t :: cs)).location_types
              = (applyLocCalls ⟨some (ts ++ [t])⟩ cs).location_types := by
                rw [applyLocCalls, List.foldl_cons, hstep]
                rfl
            _ = some (ts ++ flattenLocCalls (.single t :: cs)) := by
                rw [ih (ts ++ [t])]
                simp [flattenLocCalls]
      | multi ts1 =>
          have hstep : applyLocCall ⟨some ts⟩ (.multi ts1) =
              (⟨some (ts ++ ts1)⟩ : ReverseRequest) := rfl
          calc (applyLocCalls ⟨some ts⟩ (.multi ts1 :: cs)).location_types
              = (applyLocCalls ⟨some (ts ++ ts1)⟩ cs).location_types := by
                rw [applyLocCalls, List.foldl_cons, hstep]
                rfl
            _ = some (ts ++ flattenLocCalls (.multi ts1 :: cs)) := by
                rw [ih (ts ++ ts1)]
                simp [flattenLocCalls]

/-- C10: after any non-empty sequence of `with_location_type` /
`with_location_types` calls on a fresh request, the `location_types` field
holds `Some` of exactly the filters passed, in call order (slice order
preserved); and from any already-populated field, previously added filters
are never discarded — they remain a prefix and new filters are appended.
Each call returns the updated request, modelled by state passing. -/
theorem location_types_appended (cs : List LocCall)
    (ts0 : List LocationType) (hne : cs ≠ []) :
    ((applyLocCalls ⟨none⟩ cs).location_types =
      some (flattenLocCalls cs)) ∧
    ((applyLocCalls ⟨some ts0⟩ cs).location_types =
      some (ts0 ++ flattenLocCalls cs)) := by
  refine ⟨?_, applyLocCalls_some cs ts0⟩
  cases cs with
  | nil => exact absurd rfl hne
  | cons c cs =>
      cases c with
      | single t =>
          have hstep : applyLocCall ⟨none⟩ (.single t) =
              (⟨some [t]⟩ : ReverseRequest) := rfl
          calc (applyLocCalls ⟨none⟩ (.single t :: cs)).location_types
              = (applyLocCalls ⟨some [t]⟩ cs).location_types := by
                rw [applyLocCalls, List.foldl_cons, hstep]
                rfl
            _ = some (flattenLocCalls (.single t :: cs)) := by
                rw [applyLocCalls_some cs [t]]
                simp [flattenLocCalls]
      | multi ts1 =>
          have hstep : applyLocCall ⟨none⟩ (.multi ts1) =
              (⟨some ts1⟩ : ReverseRequest) := rfl
          calc (applyLocCalls ⟨none⟩ (.multi ts1 :: cs)).location_types
              = (applyLocCalls ⟨some ts1⟩ cs).location_types := by
                rw [applyLocCalls, List.foldl_cons, hstep]
                rfl
            _ = some (flattenLocCalls (.multi ts1 :: cs)) := by
                rw [applyLocCalls_some cs ts1]
                simp [flattenLocCalls]

/-- Witness for C10: one single-filter call followed by one slice call on a
fresh request collects the three filters in call order; the same sequence on
a request already holding one filter keeps it as the prefix. -/
theorem location_types_appended_witness :
    ((applyLocCalls ⟨none⟩
        [.single .roofTop,
         .multi [.rangeInterpolated, .approximate]]).location_types =
      some [.roofTop, .rangeInterpolated, .approximate]) ∧
    ((applyLocCalls ⟨some [LocationType.geometricCenter]⟩
        [.single .roofTop,
         .multi [.rangeInterpolated, .approximate]]).location_types =
      some [.geometricCenter, .roofTop, .rangeInterpolated, .approximate]) :=
  location_types_appended
    [.single .roofTop, .multi [.rangeInterpolated, .approximate]]
    [LocationType.geometricCenter] (by simp)

end GoogleMaps
